import Mathlib

/-!
Verification of the `synctargetexports` controller
(`pkg/reconciler/workload/synctargetexports/synctargetexports_controller.go`).

The development shallowly embeds the controller: Kubernetes objects become
Lean structures, the informer caches become lists inside a `Store`, the event
handlers and `process` become pure functions, and the work queue interactions
of `processNextWorkItem` become an explicit trace of queue operations.
-/

set_option maxHeartbeats 1000000

namespace SyncTargetExports

/-- One entry of `Status.SyncedResources`: a group/version/resource tuple plus
the identity hash of the schema it came from. -/
structure SyncedRes where
  group : String
  version : String
  resource : String
  identityHash : String
  deriving DecidableEq, Repr

/-- One entry of `Spec.SupportedAPIExports`: a reference to an APIExport by
`{path, name}`; an empty `path` means the same logical cluster as the
SyncTarget itself. -/
structure ExportRef where
  path : String
  name : String
  deriving DecidableEq, Repr

/-- The primary object. Identity is (logical cluster, name); SyncTargets are
cluster scoped, so keys carry an empty namespace. -/
structure SyncTarget where
  cluster : String
  name : String
  uid : String
  resourceVersion : String
  supportedAPIExports : List ExportRef
  syncedResources : List SyncedRes
  deriving DecidableEq, Repr

/-- An APIExport: identity (cluster, name), an annotation map, and the ordered
list of names of its latest resource schemas. -/
structure APIExport where
  cluster : String
  name : String
  annotations : List (String × String)
  latestResourceSchemas : List String
  deriving DecidableEq, Repr

/-- An APIResourceSchema: one versioned resource type plus an identity hash. -/
structure APIResourceSchema where
  cluster : String
  name : String
  group : String
  version : String
  resource : String
  identityHash : String
  deriving DecidableEq, Repr

/-- An APIResourceImport: its `Spec.Location` names the SyncTarget it
describes; `generation` is the spec-change counter used by the update
handler. -/
structure APIResourceImport where
  cluster : String
  name : String
  location : String
  generation : Nat
  group : String
  version : String
  resource : String
  deriving DecidableEq, Repr

/-- The informer caches visible to the controller, one list per watched
collection. -/
structure Store where
  syncTargets : List SyncTarget
  apiExports : List APIExport
  schemas : List APIResourceSchema
  imports : List APIResourceImport
  deriving DecidableEq, Repr

/-- `core.LogicalClusterPathAnnotationKey` ("kcp.io/path"): the annotation key
for the logical cluster path put on objects referenced by path. -/
def LogicalClusterPathAnnotationKey : String := "kcp.io/path"

/-- Go map lookup `obj.Annotations[k]`: the empty string when the key is
absent. -/
def annotGet (anns : List (String × String)) (k : String) : String :=
  ((anns.find? (fun p => p.1 == k)).map (fun p => p.2)).getD ""

/-- `logicalcluster.NewPath(p).Join(n).String()`: logical-cluster paths are
colon separated. -/
def pathJoin (p n : String) : String := p ++ ":" ++ n

/-- `kcpcache.MetaClusterNamespaceKeyFunc` on a cluster-scoped SyncTarget:
the key "cluster|name". -/
def syncTargetKey (t : SyncTarget) : String := t.cluster ++ "|" ++ t.name

/-- Split of a character list at every occurrence of a separator character
(`strings.Split` for a one-character separator, over the char list). -/
def splitChar (c : Char) : List Char → List (List Char)
  | [] => [[]]
  | x :: xs =>
      match splitChar c xs with
      | [] => if x = c then [[], []] else [[x]]
      | y :: ys => if x = c then [] :: y :: ys else (x :: y) :: ys

/-- `strings.Split(s, sep)` for a one-character separator. -/
def strSplitChar (c : Char) (s : String) : List String :=
  (splitChar c s.toList).map String.mk

/-- `cache.SplitMetaNamespaceKey`: "ns/name" or "name"; more than one slash is
a malformed key. -/
def splitMetaNamespaceKey (s : String) : Except String (String × String) :=
  match strSplitChar '/' s with
  | [n] => Except.ok ("", n)
  | [ns, n] => Except.ok (ns, n)
  | _ => Except.error ("unexpected key format: " ++ s)

/-- `kcpcache.SplitMetaClusterNamespaceKey`: "cluster|ns/name", "cluster|name"
or a cluster-less key; more than one pipe is a malformed key. -/
def splitMetaClusterNamespaceKey (key : String) :
    Except String (String × String × String) :=
  match strSplitChar '|' key with
  | [k] => (splitMetaNamespaceKey k).map (fun p => ("", p.1, p.2))
  | [c, k] => (splitMetaNamespaceKey k).map (fun p => (c, p.1, p.2))
  | _ => Except.error ("unexpected key format: " ++ key)

/-! ## Event router: SyncTarget events

`NewController` registers `AddFunc`, `UpdateFunc`, `DeleteFunc` on the
SyncTarget informer. The add handler enqueues the key; the update handler
enqueues only when `Spec.SupportedAPIExports` or `Status.SyncedResources`
changed under `equality.Semantic.DeepEqual` (structural equality here); the
delete handler is the empty function. -/

/-- A raw informer notification on the SyncTarget collection. -/
inductive STEvent where
  | add (t : SyncTarget)
  | update (old new : SyncTarget)
  | delete (t : SyncTarget)
  deriving DecidableEq, Repr

/-- The keys the SyncTarget event handler enqueues for one event
(controller file, lines 94-107). -/
def syncTargetEventKeys (e : STEvent) : List String :=
  match e with
  | STEvent.add t => [syncTargetKey t]
  | STEvent.update o n =>
      if o.supportedAPIExports ≠ n.supportedAPIExports ∨
          o.syncedResources ≠ n.syncedResources then
        [syncTargetKey n]
      else
        []
  | STEvent.delete _ => []

/-! ## Event router: APIExport events

`enqueueAPIExport` looks the export up in the `by-export` index twice: under
the path-annotation alias when the `kcp.io/path` annotation is non-empty, and
under the native (cluster, name) form; the two key sets are unioned, each key
is resolved back to its SyncTarget via `GetByKey` and re-enqueued via
`enqueueSyncTarget`. -/

/-- Modelled from the spec: the `by-export` index key function
(`indexSyncTargetsByExports`, not part of the provided sources). A SyncTarget
contributes one index entry per declared export reference, keyed by
(path-or-own-cluster, export name); an omitted path means the same logical
cluster as the SyncTarget. -/
def syncTargetExportIndexKeys (t : SyncTarget) : List String :=
  t.supportedAPIExports.map
    (fun r => pathJoin (if r.path = "" then t.cluster else r.path) r.name)

/-- `syncTargetIndexer.IndexKeys(indexSyncTargetsByExport, k)`: the keys of
the SyncTargets whose index entries contain `k`. -/
def indexSyncTargetsByExport (sts : List SyncTarget) (k : String) :
    List String :=
  (sts.filter (fun t => k ∈ syncTargetExportIndexKeys t)).map syncTargetKey

/-- `sets.String` content as a deduplicated list (first occurrence kept; the
claims are about the set of keys, not the iteration order). -/
def dedupKeys (ks : List String) : List String :=
  ks.foldl (fun acc k => if k ∈ acc then acc else acc ++ [k]) []

/-- The keys the APIExport event handler enqueues for one export object
(`enqueueAPIExport`, lines 175-212): the union of the path-alias lookup (when
the annotation is non-empty) and the native (cluster, name) lookup, each key
resolved back to its SyncTarget through `GetByKey` and re-keyed by
`enqueueSyncTarget`. -/
def enqueueAPIExport (sts : List SyncTarget) (e : APIExport) : List String :=
  let pathVal := annotGet e.annotations LogicalClusterPathAnnotationKey
  let pathKeys :=
    if pathVal ≠ "" then indexSyncTargetsByExport sts (pathJoin pathVal e.name)
    else []
  let clusterKeys := indexSyncTargetsByExport sts (pathJoin e.cluster e.name)
  (dedupKeys (pathKeys ++ clusterKeys)).filterMap
    (fun k => (sts.find? (fun t => syncTargetKey t == k)).map syncTargetKey)

/-! ## Reconciler chain

`process` runs two reconciler steps over a deep copy of the fetched
SyncTarget: `exportReconciler` then `apiCompatibleReconciler`. Their bodies
live outside the provided sources, so they are modelled from the spec
(sections 4.4 and 4.5); `process` itself (lines 275-356) is translated from
the source and is additionally stated generically over arbitrary steps. -/

/-- `indexers.ByPathAndName` match for an APIExport: the lookup path is
either the native logical cluster of the export or the value of its
`kcp.io/path` annotation. -/
def exportMatches (e : APIExport) (path name : String) : Bool :=
  e.name == name &&
    (e.cluster == path || annotGet e.annotations LogicalClusterPathAnnotationKey == path)

/-- Modelled from the spec: resolution of one declared export reference
(export resolution step, spec 4.4): resolve the reference (an omitted path
means the own cluster) to an APIExport, then each of its latest resource
schema names to a schema in the export cluster; a missing export or schema is
a per-reference error. -/
def resolveRef (exports : List APIExport) (schemas : List APIResourceSchema)
    (cluster : String) (r : ExportRef) : Except String (List SyncedRes) :=
  let path := if r.path = "" then cluster else r.path
  match exports.find? (fun e => exportMatches e path r.name) with
  | none => Except.error ("apiexport " ++ pathJoin path r.name ++ " not found")
  | some e =>
      e.latestResourceSchemas.foldr
        (fun sn acc =>
          match schemas.find? (fun s => s.cluster == e.cluster && s.name == sn) with
          | none => Except.error ("apiresourceschema " ++ sn ++ " not found")
          | some s =>
              (acc.map (fun rs =>
                ({ group := s.group, version := s.version, resource := s.resource,
                   identityHash := s.identityHash } : SyncedRes) :: rs)))
        (Except.ok [])

/-- The successfully resolved tuples of all declared references, in
declaration order. -/
def resolvedList (exports : List APIExport) (schemas : List APIResourceSchema)
    (cluster : String) (refs : List ExportRef) : List SyncedRes :=
  refs.flatMap (fun r =>
    match resolveRef exports schemas cluster r with
    | Except.ok rs => rs
    | Except.error _ => [])

/-- The per-reference resolution errors, in declaration order. -/
def exportErrs (exports : List APIExport) (schemas : List APIResourceSchema)
    (cluster : String) (refs : List ExportRef) : List String :=
  refs.filterMap (fun r =>
    match resolveRef exports schemas cluster r with
    | Except.ok _ => none
    | Except.error e => some e)

/-- Modelled from the spec: the export resolution step (`exportReconciler`,
not part of the provided sources). It rewrites `Status.SyncedResources` of
the working copy to the resolved tuples and reports unresolvable references
as one aggregated error; other fields are untouched. -/
def exportReconcile (exports : List APIExport) (schemas : List APIResourceSchema)
    (t : SyncTarget) : SyncTarget × Option String :=
  ({ t with syncedResources := resolvedList exports schemas t.cluster t.supportedAPIExports },
   match exportErrs exports schemas t.cluster t.supportedAPIExports with
   | [] => none
   | es => some (String.intercalate "; " es))

/-- An APIResourceImport backs a resolved tuple when it lives in the
SyncTarget cluster, its `Location` names the SyncTarget, and it carries the
same group/version/resource. -/
def backedByImport (imp : APIResourceImport) (cluster location : String)
    (r : SyncedRes) : Bool :=
  imp.cluster == cluster && imp.location == location &&
    imp.group == r.group && imp.version == r.version && imp.resource == r.resource

/-- Deduplication by identity hash, keeping the first occurrence. -/
def dedupByHash (rs : List SyncedRes) : List SyncedRes :=
  rs.foldl
    (fun acc r =>
      if acc.any (fun s => s.identityHash == r.identityHash) then acc
      else acc ++ [r])
    []

/-- The compatible sub-list: resolved tuples backed by a real import at this
location, deduplicated by identity hash, in stable order. -/
def compatList (imports : List APIResourceImport) (cluster location : String)
    (rs : List SyncedRes) : List SyncedRes :=
  dedupByHash (rs.filter (fun r => imports.any
    (fun imp => backedByImport imp cluster location r)))

/-- Modelled from the spec: the compatibility step (`apiCompatibleReconciler`,
not part of the provided sources). It keeps exactly the tuples backed by an
APIResourceImport at the SyncTarget location, deduplicated by identity hash;
other fields are untouched. -/
def apiCompatibleReconcile (imports : List APIResourceImport)
    (t : SyncTarget) : SyncTarget × Option String :=
  ({ t with syncedResources := compatList imports t.cluster t.name t.syncedResources },
   none)

/-! ## process and the persister -/

/-- The minimal document marshalled for the merge patch: a SyncTarget with
only UID, resourceVersion and `Status.SyncedResources` populated (zero values
elsewhere). -/
structure PatchDoc where
  uid : String
  resourceVersion : String
  syncedResources : List SyncedRes
  deriving DecidableEq, Repr

/-- The "before" document (line 320): only the observed SyncedResources. -/
def beforeDoc (observed : SyncTarget) : PatchDoc :=
  { uid := "", resourceVersion := "", syncedResources := observed.syncedResources }

/-- The "after" document (line 329): the new SyncedResources plus the
observed UID and resourceVersion, serving as preconditions. -/
def afterDoc (observed current : SyncTarget) : PatchDoc :=
  { uid := observed.uid, resourceVersion := observed.resourceVersion,
    syncedResources := current.syncedResources }

/-- One patch request issued against the persistence collaborator: target
cluster and name, payload, and the sub-resource it is scoped to. -/
structure PatchRequest (P : Type) where
  cluster : String
  name : String
  payload : P
  subresource : String
  deriving DecidableEq, Repr

/-- The outcome of one `process` call: the returned error (as the list of
aggregated messages; `none` is the nil return), the patch requests issued,
and - as a specification-only observation - the working copy after the
reconciler chain. -/
structure ProcessOutcome (P : Type) where
  result : Option (List String)
  patches : List (PatchRequest P)
  current : Option SyncTarget
  deriving DecidableEq, Repr

/-- `errs = append(errs, err)` for an optional step error. -/
def optErrList (e : Option String) : List String :=
  match e with
  | some m => [m]
  | none => []

/-- `process` (lines 275-356), generic over the two reconciler steps, the
lister outcome and the marshal / merge-patch library functions, so the
control flow of the source can be stated once for arbitrary step behaviour:
split the key (malformed: handled error, nil return); fetch the primary
object (any error: logged, nil return); run both steps unconditionally,
collecting their errors; on any collected error return the aggregate; if the
observed and reconciled SyncedResources are structurally equal return nil
without patching; otherwise marshal the before/after documents, build the
merge patch (failures returned as errors) and issue exactly one patch against
the status sub-resource. -/
def processWith {J P : Type}
    (lister : String → String → Except String SyncTarget)
    (step1 step2 : SyncTarget → SyncTarget × Option String)
    (marshal : PatchDoc → Except String J)
    (createMergePatch : J → J → Except String P)
    (key : String) : ProcessOutcome P :=
  match splitMetaClusterNamespaceKey key with
  | Except.error _ => { result := none, patches := [], current := none }
  | Except.ok (cluster, _, name) =>
    match lister cluster name with
    | Except.error _ => { result := none, patches := [], current := none }
    | Except.ok syncTarget =>
      let r1 := step1 syncTarget
      let r2 := step2 r1.1
      let current := r2.1
      let errs := optErrList r1.2 ++ optErrList r2.2
      if errs ≠ [] then
        { result := some errs, patches := [], current := some current }
      else if syncTarget.syncedResources = current.syncedResources then
        { result := none, patches := [], current := some current }
      else
        match marshal (beforeDoc syncTarget) with
        | Except.error _ =>
            { result := some ["failed to Marshal old data for placement " ++ key],
              patches := [], current := some current }
        | Except.ok oldData =>
          match marshal (afterDoc syncTarget current) with
          | Except.error _ =>
              { result := some ["failed to Marshal new data for LocationDomain " ++ key],
                patches := [], current := some current }
          | Except.ok newData =>
            match createMergePatch oldData newData with
            | Except.error e =>
                { result := some [e], patches := [], current := some current }
            | Except.ok patchBytes =>
                { result := none,
                  patches := [{ cluster := current.cluster, name := current.name,
                                payload := patchBytes, subresource := "status" }],
                  current := some current }

/-- `syncTargetLister.Cluster(cluster).Get(name)` over the Store cache. -/
def storeGet (st : Store) (cluster name : String) : Except String SyncTarget :=
  match st.syncTargets.find? (fun t => t.cluster == cluster && t.name == name) with
  | some t => Except.ok t
  | none => Except.error ("synctargets \"" ++ name ++ "\" not found")

/-- The RFC 7386 merge patch between the two minimal documents at the level
of their fields: a field appears in the patch exactly when its value
changed. -/
structure MergeDoc where
  uid : Option String
  resourceVersion : Option String
  syncedResources : Option (List SyncedRes)
  deriving DecidableEq, Repr

/-- `jsonpatch.CreateMergePatch` on the two minimal documents. -/
def mkMergePatch (o n : PatchDoc) : MergeDoc :=
  { uid := if n.uid = o.uid then none else some n.uid,
    resourceVersion :=
      if n.resourceVersion = o.resourceVersion then none else some n.resourceVersion,
    syncedResources :=
      if n.syncedResources = o.syncedResources then none else some n.syncedResources }

/-- The concrete `process`: `processWith` instantiated with the Store-backed
lister, the two modelled reconciler steps and total marshal / merge-patch
functions (marshalling of these documents cannot fail). -/
def process (st : Store) (key : String) : ProcessOutcome MergeDoc :=
  processWith (storeGet st)
    (exportReconcile st.apiExports st.schemas)
    (apiCompatibleReconcile st.imports)
    Except.ok
    (fun o n => Except.ok (mkMergePatch o n))
    key

/-- The effect of the status merge patch on one cached SyncTarget: when the
object matches the patch target, the fields carried by the patch are replaced
on its status sub-resource (the only status field here is SyncedResources). -/
def patchTarget (p : PatchRequest MergeDoc) (u : SyncTarget) : SyncTarget :=
  if u.cluster == p.cluster && u.name == p.name then
    match p.payload.syncedResources with
    | some rs => { u with syncedResources := rs }
    | none => u
  else u

/-- The effect of the status patch on the Store. -/
def applyPatch (st : Store) (p : PatchRequest MergeDoc) : Store :=
  { st with syncTargets := st.syncTargets.map (patchTarget p) }

/-- One full reconcile pass over the Store: run `process` and apply the
patches it issued. -/
def runProcess (st : Store) (key : String) : Store :=
  (process st key).patches.foldl applyPatch st

/-- The SyncedResources the reconciler chain computes for a SyncTarget: the
resolved tuples of its declared exports filtered down to the import-backed
ones; a function of the export/schema/import caches and the SyncTarget
identity and spec only. -/
def chainSynced (st : Store) (t : SyncTarget) : List SyncedRes :=
  compatList st.imports t.cluster t.name
    (resolvedList st.apiExports st.schemas t.cluster t.supportedAPIExports)

/-- The per-reference errors the reconciler chain collects for a SyncTarget. -/
def chainErrs (st : Store) (t : SyncTarget) : List String :=
  exportErrs st.apiExports st.schemas t.cluster t.supportedAPIExports

/-! ## Worker loop and work queue

`processNextWorkItem` (lines 253-273) is translated as a function from the
outcome of `queue.Get` and the behaviour of `process` to the boolean it
returns plus the trace of queue operations it performs. `queue.Done` is
deferred in the source, so it is the last operation of the iteration. -/

/-- One operation on the rate-limiting work queue. -/
inductive QueueOp where
  | getItem (key : String)
  | doneItem (key : String)
  | addRateLimited (key : String)
  | forget (key : String)
  deriving DecidableEq, Repr

/-- `processNextWorkItem`: on shutdown return false; otherwise process the
key; on error hand the key to `AddRateLimited` and continue; on nil call
`Forget`; in both cases the deferred `Done` runs last and the function
returns true. -/
def processNextWorkItem (getResult : Option String)
    (proc : String → Option (List String)) : Bool × List QueueOp :=
  match getResult with
  | none => (false, [])
  | some key =>
    match proc key with
    | some _ =>
        (true, [QueueOp.getItem key, QueueOp.addRateLimited key, QueueOp.doneItem key])
    | none =>
        (true, [QueueOp.getItem key, QueueOp.forget key, QueueOp.doneItem key])

/-- The per-key backoff state of the rate limiter after a trace of queue
operations: `AddRateLimited` adds a failure, `Forget` resets the key to the
minimum. -/
def requeueFailures (ops : List QueueOp) (key : String) : Nat :=
  ops.foldl
    (fun n op =>
      match op with
      | QueueOp.addRateLimited k => if k = key then n + 1 else n
      | QueueOp.forget k => if k = key then 0 else n
      | _ => n)
    0

/-! ## Concrete fixtures -/

/-- A schema fixture. -/
def s0 : APIResourceSchema :=
  { cluster := "root:org", name := "today.cowboys.wildwest.dev",
    group := "wildwest.dev", version := "v1alpha1", resource := "cowboys",
    identityHash := "h1" }

/-- An export fixture serving `s0`. -/
def e0 : APIExport :=
  { cluster := "root:org", name := "today-cowboys", annotations := [],
    latestResourceSchemas := ["today.cowboys.wildwest.dev"] }

/-- An import fixture backing `s0` at the location of `t0`. -/
def i0 : APIResourceImport :=
  { cluster := "root:org", name := "imp1", location := "target-a",
    generation := 1, group := "wildwest.dev", version := "v1alpha1",
    resource := "cowboys" }

/-- A SyncTarget declaring one resolvable and one missing export. -/
def t0 : SyncTarget :=
  { cluster := "root:org", name := "target-a", uid := "u1", resourceVersion := "7",
    supportedAPIExports := [{ path := "", name := "today-cowboys" },
                            { path := "", name := "missing-export" }],
    syncedResources := [] }

/-- A SyncTarget declaring only the resolvable export. -/
def t1 : SyncTarget := { t0 with supportedAPIExports := [{ path := "", name := "today-cowboys" }] }

/-- Store in which the second declared export of `t0` is missing. -/
def st0 : Store := { syncTargets := [t0], apiExports := [e0], schemas := [s0], imports := [i0] }

/-- Store in which every declared export of `t1` resolves. -/
def st1 : Store := { syncTargets := [t1], apiExports := [e0], schemas := [s0], imports := [i0] }

/-- The queue key of `t0` (and of `t1`). -/
def key0 : String := "root:org|target-a"

/-! ## C2: SyncTarget event routing -/

/-- C2 (counterexample): the SyncTarget delete handler is the empty function,
so on a delete event the object key is not enqueued, contrary to the claim
that add and delete both enqueue it. -/
theorem syncTarget_delete_not_enqueued :
    syncTargetKey t0 ∉ syncTargetEventKeys (STEvent.delete t0) := by
  intro h
  simp [syncTargetEventKeys] at h

/-- C2 (amended): on add the object key is enqueued; on update the key is
enqueued exactly when SupportedAPIExports or SyncedResources changed under
structural equality; on delete nothing is enqueued (the delete handler is a
no-op). -/
theorem syncTarget_event_routing (t o n : SyncTarget) :
    syncTargetEventKeys (STEvent.add t) = [syncTargetKey t] ∧
    (syncTargetKey n ∈ syncTargetEventKeys (STEvent.update o n) ↔
      (o.supportedAPIExports ≠ n.supportedAPIExports ∨
        o.syncedResources ≠ n.syncedResources)) ∧
    (o.supportedAPIExports = n.supportedAPIExports ∧
        o.syncedResources = n.syncedResources →
      syncTargetEventKeys (STEvent.update o n) = []) ∧
    syncTargetEventKeys (STEvent.delete t) = [] := by
  refine ⟨rfl, ?_, ?_, rfl⟩
  · constructor
    · intro hmem
      by_contra hc
      push_neg at hc
      simp [syncTargetEventKeys, hc.1, hc.2] at hmem
    · intro h
      simp [syncTargetEventKeys, h]
  · rintro ⟨h1, h2⟩
    simp [syncTargetEventKeys, h1, h2]

/-- C2 (witness): an update that changes neither field enqueues nothing. -/
theorem syncTarget_event_routing_witness :
    syncTargetEventKeys (STEvent.update t0 t0) = [] :=
  (syncTarget_event_routing t0 t0 t0).2.2.1 ⟨rfl, rfl⟩

/-! ## C4: APIExport fan-out -/

/-- Membership in the dedup fold. -/
theorem mem_foldl_dedup (ks : List String) (acc : List String) (k : String) :
    k ∈ ks.foldl (fun a x => if x ∈ a then a else a ++ [x]) acc ↔
      k ∈ acc ∨ k ∈ ks := by
  induction ks generalizing acc with
  | nil => simp
  | cons x xs ih =>
      simp only [List.foldl_cons]
      rw [ih]
      by_cases hx : x ∈ acc
      · simp only [if_pos hx, List.mem_cons]
        constructor
        · rintro (h | h)
          · exact Or.inl h
          · exact Or.inr (Or.inr h)
        · rintro (h | h | h)
          · exact Or.inl h
          · exact Or.inl (h ▸ hx)
          · exact Or.inr h
      · simp only [if_neg hx, List.mem_append, List.mem_singleton, List.mem_cons]
        tauto

/-- `dedupKeys` preserves membership. -/
theorem mem_dedupKeys (ks : List String) (k : String) :
    k ∈ dedupKeys ks ↔ k ∈ ks := by
  unfold dedupKeys
  rw [mem_foldl_dedup]
  simp

/-- Membership in the by-export index lookup names a SyncTarget of the cache. -/
theorem mem_indexSyncTargetsByExport (sts : List SyncTarget) (ck k : String) :
    k ∈ indexSyncTargetsByExport sts ck ↔
      ∃ t, t ∈ sts ∧ ck ∈ syncTargetExportIndexKeys t ∧ syncTargetKey t = k := by
  unfold indexSyncTargetsByExport
  simp only [List.mem_map, List.mem_filter, decide_eq_true_eq]
  constructor
  · rintro ⟨t, ⟨ht, hck⟩, hk⟩
    exact ⟨t, ht, hck, hk⟩
  · rintro ⟨t, ht, hck, hk⟩
    exact ⟨t, ⟨ht, hck⟩, hk⟩

/-- C4: the set of keys enqueued for an APIExport event is exactly the union
of the by-export lookup under the path alias (performed when the kcp.io/path
annotation is non-empty) and the lookup under the native (cluster, name)
form. -/
theorem apiexport_fanout_union (sts : List SyncTarget) (e : APIExport) (k : String) :
    k ∈ enqueueAPIExport sts e ↔
      ((annotGet e.annotations LogicalClusterPathAnnotationKey ≠ "" ∧
          k ∈ indexSyncTargetsByExport sts
            (pathJoin (annotGet e.annotations LogicalClusterPathAnnotationKey) e.name)) ∨
        k ∈ indexSyncTargetsByExport sts (pathJoin e.cluster e.name)) := by
  unfold enqueueAPIExport
  simp only [List.mem_filterMap, Option.map_eq_some']
  constructor
  · rintro ⟨k', hk', t, hfind, hkey⟩
    have hp := List.find?_some hfind
    have hk't : syncTargetKey t = k' := by
      simpa using hp
    have hkk' : k = k' := hkey ▸ hk't
    subst hkk'
    rw [mem_dedupKeys] at hk'
    rcases List.mem_append.mp hk' with h | h
    · by_cases hann : annotGet e.annotations LogicalClusterPathAnnotationKey ≠ ""
      · simp only [if_pos hann] at h
        exact Or.inl ⟨hann, h⟩
      · simp only [if_neg hann] at h
        simp at h
    · exact Or.inr h
  · intro h
    have hk : k ∈ (if annotGet e.annotations LogicalClusterPathAnnotationKey ≠ ""
        then indexSyncTargetsByExport sts
          (pathJoin (annotGet e.annotations LogicalClusterPathAnnotationKey) e.name)
        else []) ++ indexSyncTargetsByExport sts (pathJoin e.cluster e.name) := by
      rcases h with ⟨hann, hmem⟩ | hmem
      · exact List.mem_append.mpr (Or.inl (by simp [if_pos hann, hmem]))
      · exact List.mem_append.mpr (Or.inr hmem)
    have hex : ∃ t, t ∈ sts ∧ syncTargetKey t = k := by
      rcases List.mem_append.mp hk with hm | hm
      · by_cases hann : annotGet e.annotations LogicalClusterPathAnnotationKey ≠ ""
        · rw [if_pos hann, mem_indexSyncTargetsByExport] at hm
          obtain ⟨t, ht, _, hkt⟩ := hm
          exact ⟨t, ht, hkt⟩
        · rw [if_neg hann] at hm
          simp at hm
      · rw [mem_indexSyncTargetsByExport] at hm
        obtain ⟨t, ht, _, hkt⟩ := hm
        exact ⟨t, ht, hkt⟩
    obtain ⟨t, ht, hkt⟩ := hex
    have hsome : (sts.find? (fun u => syncTargetKey u == k)).isSome := by
      rw [List.find?_isSome]
      exact ⟨t, ht, by simp [hkt]⟩
    obtain ⟨u, hu⟩ := Option.isSome_iff_exists.mp hsome
    have hku : syncTargetKey u = k := by
      have := List.find?_some hu
      simpa using this
    exact ⟨k, (mem_dedupKeys _ _).mpr hk, u, hu, hku⟩

/-! ## Normal form of processWith after a successful fetch -/

/-- After a successful key split and fetch, `processWith` is the chain
followed by the error check, the equality check and the marshal/patch
pipeline. -/
theorem processWith_ok {J P : Type}
    (lister : String → String → Except String SyncTarget)
    (step1 step2 : SyncTarget → SyncTarget × Option String)
    (marshal : PatchDoc → Except String J)
    (create : J → J → Except String P)
    (key c ns n : String) (t : SyncTarget)
    (hsplit : splitMetaClusterNamespaceKey key = Except.ok (c, ns, n))
    (hfetch : lister c n = Except.ok t) :
    processWith lister step1 step2 marshal create key =
      (if optErrList (step1 t).2 ++ optErrList ((step2 (step1 t).1).2) ≠ [] then
        { result := some (optErrList (step1 t).2 ++ optErrList ((step2 (step1 t).1).2)),
          patches := [], current := some ((step2 (step1 t).1).1) }
      else if t.syncedResources = ((step2 (step1 t).1).1).syncedResources then
        { result := none, patches := [], current := some ((step2 (step1 t).1).1) }
      else
        match marshal (beforeDoc t) with
        | Except.error _ =>
            { result := some ["failed to Marshal old data for placement " ++ key],
              patches := [], current := some ((step2 (step1 t).1).1) }
        | Except.ok oldData =>
          match marshal (afterDoc t ((step2 (step1 t).1).1)) with
          | Except.error _ =>
              { result := some ["failed to Marshal new data for LocationDomain " ++ key],
                patches := [], current := some ((step2 (step1 t).1).1) }
          | Except.ok newData =>
            match create oldData newData with
            | Except.error e =>
                { result := some [e], patches := [],
                  current := some ((step2 (step1 t).1).1) }
            | Except.ok patchBytes =>
                { result := none,
                  patches := [{ cluster := ((step2 (step1 t).1).1).cluster,
                                name := ((step2 (step1 t).1).1).name,
                                payload := patchBytes, subresource := "status" }],
                  current := some ((step2 (step1 t).1).1) }) := by
  simp only [processWith, hsplit, hfetch]

/-! ## C5: both reconciler steps always run, errors are joined -/

/-- C5: after a successful fetch the working copy handed to the persister is
the second step applied to the output of the first, whatever the first step
returned, and when either step errors the returned error aggregates the
collected step errors in order. -/
theorem chain_runs_all_steps {J P : Type}
    (lister : String → String → Except String SyncTarget)
    (step1 step2 : SyncTarget → SyncTarget × Option String)
    (marshal : PatchDoc → Except String J)
    (create : J → J → Except String P)
    (key c ns n : String) (t : SyncTarget)
    (hsplit : splitMetaClusterNamespaceKey key = Except.ok (c, ns, n))
    (hfetch : lister c n = Except.ok t) :
    (processWith lister step1 step2 marshal create key).current =
      some ((step2 (step1 t).1).1) ∧
    (optErrList (step1 t).2 ++ optErrList ((step2 (step1 t).1).2) ≠ [] →
      (processWith lister step1 step2 marshal create key).result =
        some (optErrList (step1 t).2 ++ optErrList ((step2 (step1 t).1).2))) := by
  rw [processWith_ok lister step1 step2 marshal create key c ns n t hsplit hfetch]
  constructor
  · repeat first | rfl | split
  · intro herr
    rw [if_pos herr]

/-- C5 (witness): with two erroring steps both errors are joined and the
working copy is the composition of both steps. -/
theorem chain_runs_all_steps_witness :
    (processWith (fun _ _ => Except.ok t0) (fun t => (t, some "e1"))
        (fun t => (t, some "e2")) Except.ok
        (fun o n => Except.ok (mkMergePatch o n)) key0).current = some t0 ∧
    (processWith (fun _ _ => Except.ok t0) (fun t => (t, some "e1"))
        (fun t => (t, some "e2")) Except.ok
        (fun o n => Except.ok (mkMergePatch o n)) key0).result =
      some ["e1", "e2"] := by
  have h := chain_runs_all_steps (fun _ _ => Except.ok t0)
    (fun t => (t, some "e1")) (fun t => (t, some "e2")) Except.ok
    (fun o n => Except.ok (mkMergePatch o n)) key0 "root:org" "" "target-a" t0
    rfl rfl
  exact ⟨h.1, h.2 (by simp [optErrList])⟩

/-! ## C1: errors end the pass before the persister -/

/-- C1 (counterexample): in `st0` one declared export of `t0` is missing, so
the first step errors while the chain still mutates SyncedResources away from
the observed status; `process` returns the error and issues no patch, so the
diff-and-patch step is not reached on the mutated working copy. -/
theorem errors_skip_persist_counterexample :
    (process st0 key0).result ≠ none ∧
    (process st0 key0).current.map SyncTarget.syncedResources ≠
      some t0.syncedResources ∧
    (process st0 key0).patches = [] := by
  refine ⟨?_, ?_, ?_⟩ <;> decide

/-- C1 (amended): when at least one reconciler step errors, `process` returns
the joined step errors to the caller and returns before the persister: no
patch is issued even when the mutated SyncedResources differs from the
observed status; the diff-and-patch step runs only on error-free passes. -/
theorem errors_skip_persist {J P : Type}
    (lister : String → String → Except String SyncTarget)
    (step1 step2 : SyncTarget → SyncTarget × Option String)
    (marshal : PatchDoc → Except String J)
    (create : J → J → Except String P)
    (key c ns n : String) (t : SyncTarget)
    (hsplit : splitMetaClusterNamespaceKey key = Except.ok (c, ns, n))
    (hfetch : lister c n = Except.ok t)
    (herr : optErrList (step1 t).2 ++ optErrList ((step2 (step1 t).1).2) ≠ []) :
    (processWith lister step1 step2 marshal create key).result =
      some (optErrList (step1 t).2 ++ optErrList ((step2 (step1 t).1).2)) ∧
    (processWith lister step1 step2 marshal create key).patches = [] := by
  rw [processWith_ok lister step1 step2 marshal create key c ns n t hsplit hfetch]
  rw [if_pos herr]
  exact ⟨rfl, rfl⟩

/-- C1 (witness for the amended claim): a pass whose first step errors
returns that error and issues no patch. -/
theorem errors_skip_persist_witness :
    (processWith (fun _ _ => Except.ok t0) (fun t => (t, some "boom"))
        (fun t => (t, none)) Except.ok
        (fun o n => Except.ok (mkMergePatch o n)) key0).result = some ["boom"] ∧
    (processWith (fun _ _ => Except.ok t0) (fun t => (t, some "boom"))
        (fun t => (t, none)) Except.ok
        (fun o n => Except.ok (mkMergePatch o n)) key0).patches = [] :=
  errors_skip_persist (fun _ _ => Except.ok t0) (fun t => (t, some "boom"))
    (fun t => (t, none)) Except.ok (fun o n => Except.ok (mkMergePatch o n))
    key0 "root:org" "" "target-a" t0 rfl rfl (by simp [optErrList])

/-! ## C7 and C9: fetch failures and malformed keys return nil -/

/-- C7: when the primary SyncTarget is absent from the store at processing
time, `process` returns nil with no patch, and the worker consequently calls
Forget for the key instead of scheduling a rate-limited retry. -/
theorem notfound_returns_nil (st : Store) (key c ns n : String)
    (hsplit : splitMetaClusterNamespaceKey key = Except.ok (c, ns, n))
    (hnf : st.syncTargets.find? (fun u => u.cluster == c && u.name == n) = none) :
    process st key = { result := none, patches := [], current := none } ∧
    processNextWorkItem (some key) (fun k => (process st k).result) =
      (true, [QueueOp.getItem key, QueueOp.forget key, QueueOp.doneItem key]) := by
  have hget : storeGet st c n =
      Except.error ("synctargets \"" ++ n ++ "\" not found") := by
    unfold storeGet
    rw [hnf]
  have h1 : process st key = { result := none, patches := [], current := none } := by
    simp only [process, processWith, hsplit, hget]
  refine ⟨h1, ?_⟩
  simp only [processNextWorkItem, h1]

/-- The empty store. -/
def stEmpty : Store := { syncTargets := [], apiExports := [], schemas := [], imports := [] }

/-- C7 (witness): on the empty store the key is processed as a success. -/
theorem notfound_returns_nil_witness :
    process stEmpty key0 = { result := none, patches := [], current := none } ∧
    processNextWorkItem (some key0) (fun k => (process stEmpty k).result) =
      (true, [QueueOp.getItem key0, QueueOp.forget key0, QueueOp.doneItem key0]) :=
  notfound_returns_nil stEmpty key0 "root:org" "" "target-a" rfl rfl

/-- C9: any failure of the primary fetch (not only not-found) and any
malformed dequeued key make `process` return nil; the worker then treats the
event as success: Forget is called and no rate-limited retry is scheduled. -/
theorem fetch_or_key_failure_treated_as_success {J P : Type}
    (lister : String → String → Except String SyncTarget)
    (step1 step2 : SyncTarget → SyncTarget × Option String)
    (marshal : PatchDoc → Except String J)
    (create : J → J → Except String P) :
    (∀ key e, splitMetaClusterNamespaceKey key = Except.error e →
        processWith lister step1 step2 marshal create key =
          { result := none, patches := [], current := none }) ∧
    (∀ key c ns n e, splitMetaClusterNamespaceKey key = Except.ok (c, ns, n) →
        lister c n = Except.error e →
        processWith lister step1 step2 marshal create key =
          { result := none, patches := [], current := none }) ∧
    (∀ key (proc : String → Option (List String)), proc key = none →
        processNextWorkItem (some key) proc =
          (true, [QueueOp.getItem key, QueueOp.forget key, QueueOp.doneItem key])) := by
  refine ⟨?_, ?_, ?_⟩
  · intro key e hsplit
    simp only [processWith, hsplit]
  · intro key c ns n e hsplit hfetch
    simp only [processWith, hsplit, hfetch]
  · intro key proc hproc
    simp only [processNextWorkItem, hproc]

/-- C9 (witness): the malformed key "a|b|c" is treated as success. -/
theorem fetch_or_key_failure_witness :
    processWith (fun _ _ => Except.ok t0) (fun t => (t, none)) (fun t => (t, none))
        Except.ok (fun o n => Except.ok (mkMergePatch o n)) "a|b|c" =
      { result := none, patches := [], current := none } :=
  (fetch_or_key_failure_treated_as_success (fun _ _ => Except.ok t0)
    (fun t => (t, none)) (fun t => (t, none)) Except.ok
    (fun o n => Except.ok (mkMergePatch o n))).1 "a|b|c"
    "unexpected key format: a|b|c" rfl

/-! ## C8: rate-limited retry on error, Forget on success -/

/-- C8: an erroring `process` makes the worker re-add the key through
AddRateLimited and continue; a nil `process` makes it call Forget; an error
followed by a success leaves the per-key backoff state at the minimum. -/
theorem worker_requeue_and_backoff_reset :
    (∀ key (proc : String → Option (List String)) e, proc key = some e →
        processNextWorkItem (some key) proc =
          (true, [QueueOp.getItem key, QueueOp.addRateLimited key,
                  QueueOp.doneItem key])) ∧
    (∀ key (proc : String → Option (List String)), proc key = none →
        processNextWorkItem (some key) proc =
          (true, [QueueOp.getItem key, QueueOp.forget key, QueueOp.doneItem key])) ∧
    (∀ key (proc1 proc2 : String → Option (List String)) e,
        proc1 key = some e → proc2 key = none →
        requeueFailures ((processNextWorkItem (some key) proc1).2 ++
            (processNextWorkItem (some key) proc2).2) key = 0) := by
  refine ⟨?_, ?_, ?_⟩
  · intro key proc e hp
    simp only [processNextWorkItem, hp]
  · intro key proc hp
    simp only [processNextWorkItem, hp]
  · intro key proc1 proc2 e hp1 hp2
    simp [processNextWorkItem, hp1, hp2, requeueFailures]

/-- C8 (witness): error then success on the same key resets the backoff. -/
theorem worker_requeue_and_backoff_reset_witness :
    requeueFailures
        ((processNextWorkItem (some "k") (fun _ => some ["boom"])).2 ++
          (processNextWorkItem (some "k") (fun _ => none)).2) "k" = 0 :=
  worker_requeue_and_backoff_reset.2.2 "k" (fun _ => some ["boom"])
    (fun _ => none) ["boom"] rfl rfl

/-! ## C10: Done runs exactly once per Get -/

/-- C10: for every dequeued key, the iteration performs Done on that key
exactly once, as its last queue operation (it is deferred), whether process
errored or not, and the worker loop continues. -/
theorem done_exactly_once (key : String) (proc : String → Option (List String)) :
    ((processNextWorkItem (some key) proc).2.count (QueueOp.doneItem key) = 1) ∧
    ((processNextWorkItem (some key) proc).2.getLast? =
      some (QueueOp.doneItem key)) ∧
    (processNextWorkItem (some key) proc).1 = true := by
  cases hp : proc key <;>
    simp [processNextWorkItem, hp, List.count_cons, List.count_nil]

/-! ## Normal form of the concrete process -/

/-- `patchTarget` never changes the cluster of a cached object. -/
theorem patchTarget_cluster (p : PatchRequest MergeDoc) (u : SyncTarget) :
    (patchTarget p u).cluster = u.cluster := by
  unfold patchTarget
  split
  · split <;> rfl
  · rfl

/-- `patchTarget` never changes the name of a cached object. -/
theorem patchTarget_name (p : PatchRequest MergeDoc) (u : SyncTarget) :
    (patchTarget p u).name = u.name := by
  unfold patchTarget
  split
  · split <;> rfl
  · rfl

/-- `find?` commutes with a map whose function preserves the predicate. -/
theorem find?_map_preserve (g : SyncTarget → SyncTarget) (l : List SyncTarget)
    (q : SyncTarget → Bool) (hpres : ∀ u, q (g u) = q u) :
    (l.map g).find? q = (l.find? q).map g := by
  induction l with
  | nil => rfl
  | cons x xs ih =>
      by_cases hq : q x = true
      · rw [List.map_cons, List.find?_cons_of_pos _ (by rw [hpres]; exact hq),
          List.find?_cons_of_pos _ hq]
        rfl
      · rw [List.map_cons, List.find?_cons_of_neg _ (by rw [hpres]; exact hq),
          List.find?_cons_of_neg _ hq, ih]

/-- After a successful key split and fetch, the concrete `process` is decided
by the chain errors, the chain output and the equality check. -/
theorem process_form (st : Store) (key c ns n : String) (t : SyncTarget)
    (hsplit : splitMetaClusterNamespaceKey key = Except.ok (c, ns, n))
    (hfetch : storeGet st c n = Except.ok t) :
    process st key =
      (if chainErrs st t = [] then
        (if t.syncedResources = chainSynced st t then
          { result := none, patches := [],
            current := some { t with syncedResources := chainSynced st t } }
        else
          { result := none,
            patches := [{ cluster := t.cluster, name := t.name,
                          payload := mkMergePatch (beforeDoc t)
                            (afterDoc t { t with syncedResources := chainSynced st t }),
                          subresource := "status" }],
            current := some { t with syncedResources := chainSynced st t } })
      else
        { result := some [String.intercalate "; " (chainErrs st t)], patches := [],
          current := some { t with syncedResources := chainSynced st t } }) := by
  unfold process
  rw [processWith_ok (storeGet st)
    (exportReconcile st.apiExports st.schemas) (apiCompatibleReconcile st.imports)
    Except.ok (fun o n => Except.ok (mkMergePatch o n)) key c ns n t hsplit hfetch]
  cases hce : exportErrs st.apiExports st.schemas t.cluster t.supportedAPIExports with
  | nil =>
      simp only [chainErrs, chainSynced, hce, exportReconcile, apiCompatibleReconcile,
        optErrList, List.append_nil, List.nil_append, ne_eq, not_true_eq_false]
      simp
  | cons e es =>
      simp only [chainErrs, chainSynced, hce, exportReconcile, apiCompatibleReconcile,
        optErrList, List.append_nil, List.nil_append, ne_eq, not_true_eq_false]
      simp

/-! ## C3: equal status means no patch; a second pass is patch-free -/

/-- C3: when the reconciler chain leaves SyncedResources structurally equal
to the observed status, `process` issues no patch call at all; consequently
reconciling the same key a second time against the store produced by the
first pass (with no intervening change) issues zero patch calls. -/
theorem process_idempotent :
    (∀ {J P : Type} (lister : String → String → Except String SyncTarget)
        (step1 step2 : SyncTarget → SyncTarget × Option String)
        (marshal : PatchDoc → Except String J)
        (create : J → J → Except String P) (key c ns n : String) (t : SyncTarget),
      splitMetaClusterNamespaceKey key = Except.ok (c, ns, n) →
      lister c n = Except.ok t →
      ((step2 (step1 t).1).1).syncedResources = t.syncedResources →
      (processWith lister step1 step2 marshal create key).patches = []) ∧
    (∀ (st : Store) (key : String),
      (process (runProcess st key) key).patches = []) := by
  constructor
  · intro J P lister step1 step2 marshal create key c ns n t hsplit hfetch hEq
    rw [processWith_ok lister step1 step2 marshal create key c ns n t hsplit hfetch]
    by_cases herr : optErrList (step1 t).2 ++ optErrList ((step2 (step1 t).1).2) ≠ []
    · rw [if_pos herr]
    · rw [if_neg herr, if_pos hEq.symm]
  · intro st key
    cases hsplit : splitMetaClusterNamespaceKey key with
    | error e =>
        simp only [process, processWith, hsplit]
    | ok cnn =>
        obtain ⟨c, ns, n⟩ := cnn
        cases hget : storeGet st c n with
        | error e =>
            have h1 : process st key = { result := none, patches := [], current := none } := by
              simp only [process, processWith, hsplit, hget]
            have h2 : runProcess st key = st := by
              unfold runProcess
              rw [h1]
              rfl
            rw [h2]
            simp only [process, processWith, hsplit, hget]
        | ok t =>
            have hform := process_form st key c ns n t hsplit hget
            by_cases herrs : chainErrs st t = []
            · by_cases heq : t.syncedResources = chainSynced st t
              · have h1 : (process st key).patches = [] := by
                  rw [hform, if_pos herrs, if_pos heq]
                have h2 : runProcess st key = st := by
                  unfold runProcess
                  rw [h1]
                  rfl
                rw [h2, hform, if_pos herrs, if_pos heq]
              · -- the first pass patches the store; the second one sees the
                -- patched status, recomputes the same SyncedResources and
                -- finds them equal
                have h1 : (process st key).patches =
                    [{ cluster := t.cluster, name := t.name,
                       payload := mkMergePatch (beforeDoc t)
                         (afterDoc t { t with syncedResources := chainSynced st t }),
                       subresource := "status" }] := by
                  rw [hform, if_pos herrs, if_neg heq]
                have hrun : runProcess st key = applyPatch st
                    { cluster := t.cluster, name := t.name,
                      payload := mkMergePatch (beforeDoc t)
                        (afterDoc t { t with syncedResources := chainSynced st t }),
                      subresource := "status" } := by
                  unfold runProcess
                  rw [h1]
                  rfl
                have hpay : (mkMergePatch (beforeDoc t)
                    (afterDoc t { t with syncedResources := chainSynced st t })).syncedResources
                    = some (chainSynced st t) := by
                  show (if chainSynced st t = t.syncedResources then none
                        else some (chainSynced st t)) = some (chainSynced st t)
                  rw [if_neg (fun hh => heq hh.symm)]
                have hfind : st.syncTargets.find? (fun u => u.cluster == c && u.name == n)
                    = some t := by
                  unfold storeGet at hget
                  cases hf : st.syncTargets.find? (fun u => u.cluster == c && u.name == n) with
                  | none =>
                      rw [hf] at hget
                      exact absurd hget (by simp)
                  | some u =>
                      rw [hf] at hget
                      injection hget with hu
                      exact congrArg some hu
                have hpt := List.find?_some hfind
                have hc1 : t.cluster = c := by
                  have := (Bool.and_eq_true _ _).mp hpt
                  exact eq_of_beq this.1
                have hn1 : t.name = n := by
                  have := (Bool.and_eq_true _ _).mp hpt
                  exact eq_of_beq this.2
                have hptc : patchTarget
                    { cluster := t.cluster, name := t.name,
                      payload := mkMergePatch (beforeDoc t)
                        (afterDoc t { t with syncedResources := chainSynced st t }),
                      subresource := "status" } t
                    = { t with syncedResources := chainSynced st t } := by
                  unfold patchTarget
                  rw [hpay]
                  simp
                have hfind2 : ((applyPatch st
                    { cluster := t.cluster, name := t.name,
                      payload := mkMergePatch (beforeDoc t)
                        (afterDoc t { t with syncedResources := chainSynced st t }),
                      subresource := "status" }).syncTargets).find?
                      (fun u => u.cluster == c && u.name == n)
                    = some { t with syncedResources := chainSynced st t } := by
                  unfold applyPatch
                  rw [show ({ st with syncTargets := st.syncTargets.map (patchTarget
                      { cluster := t.cluster, name := t.name,
                        payload := mkMergePatch (beforeDoc t)
                          (afterDoc t { t with syncedResources := chainSynced st t }),
                        subresource := "status" }) } : Store).syncTargets
                    = st.syncTargets.map (patchTarget
                      { cluster := t.cluster, name := t.name,
                        payload := mkMergePatch (beforeDoc t)
                          (afterDoc t { t with syncedResources := chainSynced st t }),
                        subresource := "status" }) from rfl]
                  rw [find?_map_preserve _ _ _
                    (fun u => by rw [patchTarget_cluster, patchTarget_name])]
                  rw [hfind]
                  exact congrArg some hptc
                have hget2 : storeGet (applyPatch st
                    { cluster := t.cluster, name := t.name,
                      payload := mkMergePatch (beforeDoc t)
                        (afterDoc t { t with syncedResources := chainSynced st t }),
                      subresource := "status" }) c n
                    = Except.ok { t with syncedResources := chainSynced st t } := by
                  unfold storeGet
                  rw [hfind2]
                have hce2 : chainErrs (applyPatch st
                    { cluster := t.cluster, name := t.name,
                      payload := mkMergePatch (beforeDoc t)
                        (afterDoc t { t with syncedResources := chainSynced st t }),
                      subresource := "status" })
                    { t with syncedResources := chainSynced st t } = [] := herrs
                have heq2 : ({ t with syncedResources := chainSynced st t } : SyncTarget).syncedResources
                    = chainSynced (applyPatch st
                        { cluster := t.cluster, name := t.name,
                          payload := mkMergePatch (beforeDoc t)
                            (afterDoc t { t with syncedResources := chainSynced st t }),
                          subresource := "status" })
                        { t with syncedResources := chainSynced st t } := rfl
                rw [hrun]
                rw [process_form _ key c ns n _ hsplit hget2]
                rw [if_pos hce2, if_pos heq2]
            · have h1 : (process st key).patches = [] := by
                rw [hform, if_neg herrs]
              have h2 : runProcess st key = st := by
                unfold runProcess
                rw [h1]
                rfl
              rw [h2, hform, if_neg herrs]

/-- C3 (witness): a concrete second pass issues no patch, and a chain that
leaves SyncedResources untouched issues none either. -/
theorem process_idempotent_witness :
    (process (runProcess st1 key0) key0).patches = [] ∧
    (processWith (storeGet st1) (fun t => (t, none)) (fun t => (t, none))
        Except.ok (fun o n => Except.ok (mkMergePatch o n)) key0).patches = [] :=
  ⟨process_idempotent.2 st1 key0,
    process_idempotent.1 (storeGet st1) (fun t => (t, none)) (fun t => (t, none))
      Except.ok (fun o n => Except.ok (mkMergePatch o n)) key0 "root:org" ""
      "target-a" t1 rfl rfl rfl⟩

/-! ## C6: shape of the status patch -/

/-- C6: after an error-free chain whose output SyncedResources differs from
the observed status, exactly one patch is issued, built as the merge patch of
the "before" document (only the observed SyncedResources) and the "after"
document (the new SyncedResources plus the observed UID and resourceVersion
as preconditions), applied to the status sub-resource of the object; any
marshal or merge-patch-creation failure is returned to the caller as an error
with no patch issued. -/
theorem persister_patch_shape {J P : Type}
    (lister : String → String → Except String SyncTarget)
    (step1 step2 : SyncTarget → SyncTarget × Option String)
    (marshal : PatchDoc → Except String J)
    (create : J → J → Except String P)
    (key c ns n : String) (t : SyncTarget)
    (hsplit : splitMetaClusterNamespaceKey key = Except.ok (c, ns, n))
    (hfetch : lister c n = Except.ok t)
    (herr : optErrList (step1 t).2 ++ optErrList ((step2 (step1 t).1).2) = [])
    (hdiff : t.syncedResources ≠ ((step2 (step1 t).1).1).syncedResources) :
    (∀ j1 j2 p, marshal (beforeDoc t) = Except.ok j1 →
        marshal (afterDoc t ((step2 (step1 t).1).1)) = Except.ok j2 →
        create j1 j2 = Except.ok p →
        (processWith lister step1 step2 marshal create key).patches =
          [{ cluster := ((step2 (step1 t).1).1).cluster,
             name := ((step2 (step1 t).1).1).name,
             payload := p, subresource := "status" }] ∧
        (processWith lister step1 step2 marshal create key).result = none) ∧
    (∀ e, marshal (beforeDoc t) = Except.error e →
        (processWith lister step1 step2 marshal create key).result ≠ none ∧
        (processWith lister step1 step2 marshal create key).patches = []) ∧
    (∀ j1 e, marshal (beforeDoc t) = Except.ok j1 →
        marshal (afterDoc t ((step2 (step1 t).1).1)) = Except.error e →
        (processWith lister step1 step2 marshal create key).result ≠ none ∧
        (processWith lister step1 step2 marshal create key).patches = []) ∧
    (∀ j1 j2 e, marshal (beforeDoc t) = Except.ok j1 →
        marshal (afterDoc t ((step2 (step1 t).1).1)) = Except.ok j2 →
        create j1 j2 = Except.error e →
        (processWith lister step1 step2 marshal create key).result = some [e] ∧
        (processWith lister step1 step2 marshal create key).patches = []) := by
  have hne : ¬ (optErrList (step1 t).2 ++ optErrList ((step2 (step1 t).1).2) ≠ []) := by
    simp [herr]
  have hform := processWith_ok lister step1 step2 marshal create key c ns n t hsplit hfetch
  rw [if_neg hne, if_neg hdiff] at hform
  refine ⟨?_, ?_, ?_, ?_⟩
  · intro j1 j2 p h1 h2 h3
    rw [hform]
    simp [h1, h2, h3]
  · intro e h1
    rw [hform]
    simp [h1]
  · intro j1 e h1 h2
    rw [hform]
    simp [h1, h2]
  · intro j1 j2 e h1 h2 h3
    rw [hform]
    simp [h1, h2, h3]

/-- C6 (witness): the concrete pass over `st1` issues exactly one status
patch and returns nil. -/
theorem persister_patch_shape_witness :
    (processWith (storeGet st1) (exportReconcile st1.apiExports st1.schemas)
        (apiCompatibleReconcile st1.imports) Except.ok
        (fun o n => Except.ok (mkMergePatch o n)) key0).result = none ∧
    (processWith (storeGet st1) (exportReconcile st1.apiExports st1.schemas)
        (apiCompatibleReconcile st1.imports) Except.ok
        (fun o n => Except.ok (mkMergePatch o n)) key0).patches.length = 1 := by
  have h := (persister_patch_shape (storeGet st1)
      (exportReconcile st1.apiExports st1.schemas)
      (apiCompatibleReconcile st1.imports) Except.ok
      (fun o n => Except.ok (mkMergePatch o n)) key0 "root:org" "" "target-a" t1
      rfl rfl (by decide) (by decide)).1 _ _ _ rfl rfl rfl
  refine ⟨h.2, ?_⟩
  rw [h.1]
  rfl

end SyncTargetExports
